import Mathlib

/-!
Shallow embedding of the engine-session and pool core of the
`node-stockfish` library: the UCI info-line parser, the output handler that
folds parsed events into the active analysis, the `analyze` guard, and the
session pool (acquire / release / crash replacement / terminate).
JavaScript numeric values that may be `NaN` or absent are modelled
explicitly, and the relevant pieces of the JavaScript runtime (string
split, prefix test, `parseInt`, truthiness defaults, sparse array
assignment) are modelled on character lists so that everything evaluates.
-/

namespace NodeStockfish

/-- A JavaScript number as produced by `parseInt`: an integer or `NaN`. -/
inductive JsNum where
  | nan : JsNum
  | int (n : Int) : JsNum
deriving DecidableEq

/-- Leading decimal digits of a character list, as consumed by JS `parseInt`. -/
def takeDigits : List Char → List Char
  | [] => []
  | c :: cs => if c.isDigit then c :: takeDigits cs else []

/-- Numeric value of a digit list, most significant digit first. -/
def digitsToNat (l : List Char) : Nat :=
  l.foldl (fun acc c => acc * 10 + (c.toNat - 48)) 0

/-- JS `parseInt(s)` restricted to the space-free tokens this program feeds
it: an optional sign followed by leading decimal digits; `NaN` when no
digit is present; trailing non-digit characters are ignored, as in JS. -/
def jsParseInt (s : String) : JsNum :=
  match s.data with
  | '-' :: r => if (takeDigits r).isEmpty then JsNum.nan
                else JsNum.int (-(digitsToNat (takeDigits r) : Int))
  | '+' :: r => if (takeDigits r).isEmpty then JsNum.nan
                else JsNum.int (digitsToNat (takeDigits r))
  | r => if (takeDigits r).isEmpty then JsNum.nan
         else JsNum.int (digitsToNat (takeDigits r))

/-- JS `x || d` for a possibly absent numeric field: `undefined`, `NaN`
and `0` are falsy and select the default. -/
def jsOrInt (x : Option JsNum) (d : Int) : Int :=
  match x with
  | some (JsNum.int n) => if n = 0 then d else n
  | _ => d

/-- JS `x || d` for a possibly absent string: `undefined` and the empty
string are falsy and select the default. -/
def jsOrStr (x : Option String) (d : String) : String :=
  match x with
  | some s => if s = "" then d else s
  | none => d

/-- Splits a character list at every space character, JS
`String.prototype.split` with a one-space separator: adjacent separators
produce empty fields and the empty string yields one empty field. -/
def splitFields : List Char → List (List Char)
  | [] => [[]]
  | c :: cs =>
    let r := splitFields cs
    if c = ' ' then [] :: r
    else (c :: r.headD []) :: r.tail

/-- JS `line.split(' ')`, modelled on the character list of the string. -/
def jsSplit (s : String) : List String :=
  (splitFields s.data).map (fun l => String.mk l)

/-- JS `parts.slice(k).join(' ')` applied to a token list. -/
def joinSpace : List String → String
  | [] => ""
  | [x] => x
  | x :: xs => x ++ " " ++ joinSpace xs

/-- JS `s.startsWith(p)`: prefix test, modelled on the character lists. -/
def jsStartsWith (s p : String) : Bool :=
  p.data.isPrefixOf s.data

/-- A parsed `score` field: the kind token, which the source casts without
validation and so can be any string, and a possibly-`NaN` value. -/
structure JsScore where
  type : String
  value : JsNum
deriving DecidableEq

/-- The transient result of `#parseInfo`: the fields assigned on the
accumulator object, which the source initialises with an empty `pv` and
no other field. -/
structure StockfishInfo where
  depth : Option JsNum := none
  seldepth : Option JsNum := none
  time : Option JsNum := none
  nodes : Option JsNum := none
  nps : Option JsNum := none
  hashfull : Option JsNum := none
  cpuload : Option JsNum := none
  multipv : Option JsNum := none
  score : Option JsScore := none
  pv : String := ""
deriving DecidableEq

/-- The case labels of the `switch` in `#parseInfo`. -/
def recognizedKeys : List String :=
  ["depth", "seldepth", "time", "nodes", "nps", "hashfull", "cpuload",
   "multipv", "score", "pv"]

namespace Stockfish

/-- The token scan of `#parseInfo`. The source iterates an index bounded
by the token count; every iteration consumes at least one token, so fuel
equal to the token count is never exhausted. A recognized numeric key
consumes its value token, `score` consumes a kind token and a value token,
`pv` consumes the remainder of the line, and an unrecognized token is
skipped on its own. -/
def parseInfoGo (fuel : Nat) (toks : List String) (info : StockfishInfo) :
    StockfishInfo :=
  match fuel with
  | 0 => info
  | fuel + 1 =>
    match toks with
    | [] => info
    | tok :: rest =>
      let valueStr := rest.headD ""
      if tok = "depth" then
        parseInfoGo fuel (rest.drop 1) { info with depth := some (jsParseInt valueStr) }
      else if tok = "seldepth" then
        parseInfoGo fuel (rest.drop 1) { info with seldepth := some (jsParseInt valueStr) }
      else if tok = "time" then
        parseInfoGo fuel (rest.drop 1) { info with time := some (jsParseInt valueStr) }
      else if tok = "nodes" then
        parseInfoGo fuel (rest.drop 1) { info with nodes := some (jsParseInt valueStr) }
      else if tok = "nps" then
        parseInfoGo fuel (rest.drop 1) { info with nps := some (jsParseInt valueStr) }
      else if tok = "hashfull" then
        parseInfoGo fuel (rest.drop 1) { info with hashfull := some (jsParseInt valueStr) }
      else if tok = "cpuload" then
        parseInfoGo fuel (rest.drop 1) { info with cpuload := some (jsParseInt valueStr) }
      else if tok = "multipv" then
        parseInfoGo fuel (rest.drop 1) { info with multipv := some (jsParseInt valueStr) }
      else if tok = "score" then
        let scoreValue := (rest.drop 1).headD ""
        parseInfoGo fuel (rest.drop 2)
          { info with score := some ⟨valueStr, jsParseInt scoreValue⟩ }
      else if tok = "pv" then
        { info with pv := joinSpace rest }
      else
        parseInfoGo fuel rest info

/-- The `#parseInfo` method: tokenize on single spaces and scan from token
one. The declared return type in the source is nullable, but the
implementation always returns the accumulator object. -/
def parseInfo (line : String) : Option StockfishInfo :=
  let parts := jsSplit line
  some (parseInfoGo parts.length (parts.drop 1) { pv := "" })

end Stockfish

/-- A stored analysis line: the shape of the object the output handler
writes into the lines collection of the active analysis. Numeric fields
that the source defaults with a truthiness test are plain integers; the
depth field is stored untouched and so can be absent or `NaN`. -/
structure StockfishLine where
  pv : String
  score : JsScore
  depth : Option JsNum
  nodes : Int
  time : Int
  nps : Int
deriving DecidableEq

/-- The accumulating analysis result: best move, optional ponder move and
the multi-PV indexed lines collection; entries model JS array slots, with
`none` for a hole of the sparse array. -/
structure StockfishAnalysis where
  bestmove : String
  ponder : Option String := none
  lines : List (Option StockfishLine) := []
deriving DecidableEq

/-- Assignment at a natural index on a JS array: overwrites in range, and
pads with holes when the index is past the end. -/
def setAtNat : List (Option StockfishLine) → Nat → StockfishLine →
    List (Option StockfishLine)
  | [], 0, v => [some v]
  | [], n + 1, v => none :: setAtNat [] n v
  | _ :: xs, 0, v => some v :: xs
  | x :: xs, n + 1, v => x :: setAtNat xs n v

/-- Assignment at a possibly negative index: a negative index sets a
non-element property on the JS array object and leaves the elements
unchanged. -/
def jsArraySet (l : List (Option StockfishLine)) (i : Int)
    (v : StockfishLine) : List (Option StockfishLine) :=
  if 0 ≤ i then setAtNat l i.toNat v else l

/-- Read of a JS array at a natural index: out of range and holes give
undefined. -/
def listGet (l : List (Option StockfishLine)) (n : Nat) :
    Option StockfishLine :=
  (l.drop n).headD none

/-- The stored line object literal the output handler writes when folding
a parsed info event, with the truthiness defaults of the source applied:
an absent score becomes centipawn zero, and absent nodes, time and nps
each become zero. -/
def foldLine (i : StockfishInfo) : StockfishLine :=
  { pv := i.pv
    score := i.score.getD ⟨"cp", JsNum.int 0⟩
    depth := i.depth
    nodes := jsOrInt i.nodes 0
    time := jsOrInt i.time 0
    nps := jsOrInt i.nps 0 }

/-- The analysis bookkeeping of one engine session: whether a result
resolver pair is registered and the accumulating analysis object. -/
structure SessionState where
  analysisPromise : Bool
  currentAnalysis : Option StockfishAnalysis
deriving DecidableEq

/-- Observable effects of processing one output line: the raw output
notification, the parsed info notification, and the invocation of the
registered resolver with the final analysis. -/
inductive SessionEvent where
  | output (line : String)
  | info (i : StockfishInfo)
  | resolve (a : StockfishAnalysis)
deriving DecidableEq

namespace Stockfish

/-- The `#handleOutput` method: re-emit the raw line, then classify. Info
lines are parsed and, when an analysis is active, folded into its lines at
index `(multipv or 1) - 1` with truthiness defaults for score, nodes, time
and nps. Best-move lines, when both a resolver and an analysis are
registered, set the best move to token one (empty when absent), set the
ponder move to token three exactly when token two is the ponder keyword,
invoke the resolver with the accumulated analysis and clear both. -/
def handleOutput (line : String) (s : SessionState) :
    SessionState × List SessionEvent :=
  if jsStartsWith line "info" then
    match Stockfish.parseInfo line with
    | some i =>
      match s.currentAnalysis with
      | some a =>
        let newLine : StockfishLine :=
          { pv := i.pv
            score := i.score.getD ⟨"cp", JsNum.int 0⟩
            depth := i.depth
            nodes := jsOrInt i.nodes 0
            time := jsOrInt i.time 0
            nps := jsOrInt i.nps 0 }
        let a2 : StockfishAnalysis :=
          { a with lines := jsArraySet a.lines (jsOrInt i.multipv 1 - 1) newLine }
        ({ s with currentAnalysis := some a2 },
         [SessionEvent.output line, SessionEvent.info i])
      | none => (s, [SessionEvent.output line, SessionEvent.info i])
    | none => (s, [SessionEvent.output line])
  else if jsStartsWith line "bestmove" then
    match s.analysisPromise, s.currentAnalysis with
    | true, some a =>
      let parts := jsSplit line
      let a2 : StockfishAnalysis :=
        { a with
          bestmove := jsOrStr parts[1]? ""
          ponder := if parts[2]? = some "ponder" then parts[3]? else a.ponder }
      (⟨false, none⟩, [SessionEvent.output line, SessionEvent.resolve a2])
    | _, _ => (s, [SessionEvent.output line])
  else
    (s, [SessionEvent.output line])

/-- The synchronous state effect of `analyze`: the in-progress guard fires
before any mutation, otherwise a fresh analysis with empty best move and
empty lines is registered together with a new resolver pair. -/
def analyze (s : SessionState) : Except String Unit × SessionState :=
  if s.analysisPromise then
    (Except.error "Analysis already in progress", s)
  else
    (Except.ok (), ⟨true, some { bestmove := "", lines := [] }⟩)

end Stockfish

/-- Engine sessions owned by a pool, identified by creation order. -/
abbrev SessionId := Nat

/-- Queued acquisition resolvers, identified by the caller. -/
abbrev WaiterId := Nat

/-- The bookkeeping collections of `StockfishPool`: the membership set,
the LIFO free list, the FIFO waiter queue, and the identifier for the
next session the pool constructs. -/
structure PoolState where
  all : List SessionId
  free : List SessionId
  queue : List WaiterId
  nextId : SessionId
deriving DecidableEq

/-- Observable effects of a pool operation: a queued waiter resolver
invoked with a session, or a session terminated. -/
inductive PoolEvent where
  | resolved (w : WaiterId) (e : SessionId)
  | terminated (e : SessionId)
deriving DecidableEq

/-- Whether a pool event is the resolution of a queued waiter. -/
def PoolEvent.isResolve : PoolEvent → Bool
  | PoolEvent.resolved _ _ => true
  | PoolEvent.terminated _ => false

namespace StockfishPool

/-- The `#makeAvailable` method: with a non-empty waiter queue the session
is handed to the oldest waiter and the free list is untouched; otherwise
it is pushed onto the free list. -/
def makeAvailable (p : PoolState) (engine : SessionId) :
    PoolState × List PoolEvent :=
  match p.queue with
  | w :: rest => ({ p with queue := rest }, [PoolEvent.resolved w engine])
  | [] => ({ p with free := p.free ++ [engine] }, [])

/-- The `#addWorker` method: construct a fresh session, add it to the
membership set and make it available. The add mirrors JS `Set.add`, a
no-op on an element already present. -/
def addWorker (p : PoolState) : PoolState × List PoolEvent :=
  let engine := p.nextId
  let p1 : PoolState :=
    { p with
      nextId := p.nextId + 1
      all := if engine ∈ p.all then p.all else p.all ++ [engine] }
  makeAvailable p1 engine

/-- The `#replaceWorker` method: delete the dead session from the
membership set (JS `Set.delete` removes the single occurrence), filter it
out of the free list, terminate it best-effort, then add one replacement. -/
def replaceWorker (p : PoolState) (dead : SessionId) :
    PoolState × List PoolEvent :=
  let p1 : PoolState :=
    { p with all := p.all.erase dead, free := p.free.filter (fun e => e ≠ dead) }
  let r := addWorker p1
  (r.1, PoolEvent.terminated dead :: r.2)

/-- The outcome of an `acquire` call: an immediately returned session, or
a resolver pushed onto the waiter queue. -/
inductive AcquireResult where
  | acquired (e : SessionId)
  | pending (w : WaiterId)
deriving DecidableEq

/-- The `acquire` method: pop the most recently pushed free session when
one exists, otherwise enqueue the resolver. -/
def acquire (p : PoolState) (w : WaiterId) : AcquireResult × PoolState :=
  match p.free.getLast? with
  | some e => (AcquireResult.acquired e, { p with free := p.free.dropLast })
  | none => (AcquireResult.pending w, { p with queue := p.queue ++ [w] })

/-- The `release` method: make the session available again only when it is
still a pool member; releasing a non-member is a silent no-op. -/
def release (p : PoolState) (engine : SessionId) :
    PoolState × List PoolEvent :=
  if engine ∈ p.all then makeAvailable p engine else (p, [])

/-- The pool `terminate` method: terminate every member, then clear the
membership set, the free list and the waiter queue; no queued resolver is
invoked. -/
def terminate (p : PoolState) : PoolState × List PoolEvent :=
  ({ p with all := [], free := [], queue := [] },
   p.all.map PoolEvent.terminated)

/-- Public pool operations available after construction. -/
inductive PoolOp where
  | opAcquire (w : WaiterId)
  | opRelease (e : SessionId)
  | opTerminate
deriving DecidableEq

/-- One public pool operation as a state step; an acquire that returns a
session immediately counts as a resolution of its caller. -/
def step (p : PoolState) : PoolOp → PoolState × List PoolEvent
  | PoolOp.opAcquire w =>
    match acquire p w with
    | (AcquireResult.acquired e, p2) => (p2, [PoolEvent.resolved w e])
    | (AcquireResult.pending _, p2) => (p2, [])
  | PoolOp.opRelease e => release p e
  | PoolOp.opTerminate => terminate p

/-- Run a sequence of public pool operations, accumulating events. -/
def runOps (p : PoolState) : List PoolOp → PoolState × List PoolEvent
  | [] => (p, [])
  | op :: rest =>
    let r := step p op
    let r2 := runOps r.1 rest
    (r2.1, r.2 ++ r2.2)

/-- The pool constructor body: add the configured number of workers. -/
def mkPoolGo : Nat → PoolState → PoolState
  | 0, p => p
  | n + 1, p => mkPoolGo n (addWorker p).1

/-- A pool constructed with the given size from the empty state. -/
def mkPool (size : Nat) : PoolState :=
  mkPoolGo size ⟨[], [], [], 0⟩

end StockfishPool

/-! Helper lemmas shared by the claim theorems. -/

/-- A line that starts with the best-move keyword does not start with the
info keyword, since the two keywords disagree on their first character. -/
theorem not_info_of_bestmove (line : String)
    (h : jsStartsWith line "bestmove" = true) :
    jsStartsWith line "info" = false := by
  unfold jsStartsWith at h ⊢
  rw [ List.isPrefixOf_iff_prefix] at h
  rw [Bool.eq_false_iff]
  intro hc
  rw [ List.isPrefixOf_iff_prefix] at hc
  rcases List.prefix_or_prefix_of_prefix h hc with h1 | h1
  · exact absurd h1 (by decide)
  · exact absurd h1 (by decide)

set_option maxHeartbeats 2000000 in
/-- Scanning tokens that never contain the depth key leaves the depth
field of the accumulator untouched, and scanning tokens that never contain
the pv key leaves the pv field untouched. -/
theorem parseInfoGo_preserve (fuel : Nat) :
    ∀ (toks : List String) (info : StockfishInfo),
      ("depth" ∉ toks →
        (Stockfish.parseInfoGo fuel toks info).depth = info.depth) ∧
      ("pv" ∉ toks →
        (Stockfish.parseInfoGo fuel toks info).pv = info.pv) := by
  induction fuel with
  | zero => exact fun toks info => ⟨fun _ => rfl, fun _ => rfl⟩
  | succ fuel ih =>
    intro toks info
    cases toks with
    | nil => exact ⟨fun _ => rfl, fun _ => rfl⟩
    | cons tok rest =>
      constructor
      · intro h
        have hne : tok ≠ "depth" := fun hc => h (hc ▸ List.mem_cons_self _ _)
        have hrest : "depth" ∉ rest := fun hc => h (List.mem_cons_of_mem _ hc)
        simp only [Stockfish.parseInfoGo, if_neg hne]
        split_ifs <;>
          first
            | rfl
            | exact (ih _ _).1 fun hc => hrest (List.mem_of_mem_drop hc)
            | exact (ih _ _).1 hrest
      · intro h
        have hne : tok ≠ "pv" := fun hc => h (hc ▸ List.mem_cons_self _ _)
        have hrest : "pv" ∉ rest := fun hc => h (List.mem_cons_of_mem _ hc)
        simp only [Stockfish.parseInfoGo]
        split_ifs <;>
          first
            | exact absurd (by assumption) hne
            | rfl
            | exact (ih _ _).2 fun hc => hrest (List.mem_of_mem_drop hc)
            | exact (ih _ _).2 hrest

/-- Writing a line at an index and reading the same index back yields that
line, whatever the slot held before. -/
theorem listGet_setAtNat (v : StockfishLine) :
    ∀ (n : Nat) (l : List (Option StockfishLine)),
      listGet (setAtNat l n v) n = some v := by
  intro n
  induction n with
  | zero => intro l; cases l <;> rfl
  | succ n ih =>
    intro l
    cases l with
    | nil => exact ih []
    | cons x xs => exact ih xs

/-- From a pool state with empty membership and empty free list, every run
of public pool operations produces no waiter resolution and keeps both
collections empty. -/
theorem runOps_no_resolve :
    ∀ (ops : List StockfishPool.PoolOp) (p : PoolState),
      p.all = [] → p.free = [] →
      ((StockfishPool.runOps p ops).2.all fun e => !e.isResolve) = true ∧
      (StockfishPool.runOps p ops).1.all = [] ∧
      (StockfishPool.runOps p ops).1.free = [] := by
  intro ops
  induction ops with
  | nil => exact fun p h1 h2 => ⟨rfl, h1, h2⟩
  | cons op rest ih =>
    intro p h1 h2
    cases op with
    | opAcquire w =>
      have hstep : StockfishPool.step p (StockfishPool.PoolOp.opAcquire w) =
          ({ p with queue := p.queue ++ [w] }, []) := by
        simp [StockfishPool.step, StockfishPool.acquire, h2]
      have ihh := ih { p with queue := p.queue ++ [w] } h1 h2
      simp only [StockfishPool.runOps, hstep]
      simpa using ihh
    | opRelease e =>
      have hstep : StockfishPool.step p (StockfishPool.PoolOp.opRelease e) =
          (p, []) := by
        simp [StockfishPool.step, StockfishPool.release, h1]
      have ihh := ih p h1 h2
      simp only [StockfishPool.runOps, hstep]
      simpa using ihh
    | opTerminate =>
      have hstep : StockfishPool.step p StockfishPool.PoolOp.opTerminate =
          ({ p with all := [], free := [], queue := [] }, []) := by
        simp [StockfishPool.step, StockfishPool.terminate, h1]
      have ihh := ih { p with all := [], free := [], queue := [] } rfl rfl
      simp only [StockfishPool.runOps, hstep]
      simpa using ihh

/-! Claim theorems. -/

/-- C3: the info-line parser applied to the two sample lines yields the
stated depth, seldepth, score, nodes, nps and pv fields. -/
theorem c3_parseInfo_samples :
    Stockfish.parseInfo
        "info depth 12 seldepth 18 score cp 34 nodes 500000 nps 250000 pv e2e4 e7e5" =
      some { depth := some (JsNum.int 12), seldepth := some (JsNum.int 18),
             score := some ⟨"cp", JsNum.int 34⟩, nodes := some (JsNum.int 500000),
             nps := some (JsNum.int 250000), pv := "e2e4 e7e5" } ∧
    Stockfish.parseInfo "info depth 5 score mate -3 pv g1f3" =
      some { depth := some (JsNum.int 5), score := some ⟨"mate", JsNum.int (-3)⟩,
             pv := "g1f3" } := by
  constructor <;> decide

/-- C4: a token that is none of the recognized keys is skipped while the
scan advances by exactly one token, with no value token consumed, so the
immediately following token is examined next as a key; and no input line
makes the parse fail. -/
theorem c4_unrecognized_key_skipped (fuel : Nat) (tok : String)
    (rest : List String) (info : StockfishInfo)
    (h : tok ∉ recognizedKeys) :
    Stockfish.parseInfoGo (fuel + 1) (tok :: rest) info =
      Stockfish.parseInfoGo fuel rest info ∧
    ∀ line, (Stockfish.parseInfo line).isSome = true := by
  refine ⟨?_, fun line => rfl⟩
  simp only [recognizedKeys, List.mem_cons, List.mem_singleton, not_or] at h
  obtain ⟨h1, h2, h3, h4, h5, h6, h7, h8, h9, h10⟩ := h
  simp [Stockfish.parseInfoGo, h1, h2, h3, h4, h5, h6, h7, h8, h9, h10]

/-- Witness for C4: the parser skips the unrecognized currmove key with
the scan advancing one token, and the rest of the line parses as usual. -/
theorem c4_witness :
    Stockfish.parseInfoGo 3 ["currmove", "depth", "7"] { pv := "" } =
      Stockfish.parseInfoGo 2 ["depth", "7"] { pv := "" } ∧
    Stockfish.parseInfoGo 2 ["depth", "7"] { pv := "" } =
      { depth := some (JsNum.int 7), pv := "" } :=
  ⟨(c4_unrecognized_key_skipped 2 "currmove" ["depth", "7"] { pv := "" }
      (by decide)).1,
   by decide⟩

/-- C2 counterexample: the guard of a second analyze call produces the
error message Analysis already in progress with a capital first letter,
not the all-lowercase message stated by the claim. -/
theorem c2_counterexample :
    (Stockfish.analyze ⟨true, some { bestmove := "", lines := [] }⟩).1 =
      Except.error "Analysis already in progress" ∧
    (Stockfish.analyze ⟨true, some { bestmove := "", lines := [] }⟩).1 ≠
      Except.error "analysis already in progress" := by
  refine ⟨rfl, ?_⟩
  simp only [Stockfish.analyze, if_pos rfl]
  intro hc
  have : "Analysis already in progress" = "analysis already in progress" :=
    Except.error.inj hc
  exact absurd this (by decide)

/-- C2 amended: a second analyze call on a session whose analysis resolver
is still registered fails with the protocol-usage error Analysis already
in progress, and the failure is atomic: the session state, including the
accumulated result and the registered resolver, is returned exactly
unchanged. -/
theorem c2_analyze_guard (s : SessionState) (h : s.analysisPromise = true) :
    Stockfish.analyze s = (Except.error "Analysis already in progress", s) := by
  simp [Stockfish.analyze, h]

/-- Witness for C2 at a concrete busy session. -/
theorem c2_witness :
    Stockfish.analyze ⟨true, some { bestmove := "e2e4", lines := [] }⟩ =
      (Except.error "Analysis already in progress",
       ⟨true, some { bestmove := "e2e4", lines := [] }⟩) :=
  c2_analyze_guard ⟨true, some { bestmove := "e2e4", lines := [] }⟩ rfl

/-- C5: with a non-empty free list, acquire removes and returns the most
recently added free session without blocking; and a session made
available while the waiter queue is non-empty, through makeAvailable
directly, through release of a member, or through adding a replacement
worker, is handed to the oldest queued waiter and is not placed in the
free list. -/
theorem c5_lifo_acquire_fifo_waiters (p : PoolState) (w : WaiterId)
    (e : SessionId) (l : List SessionId) (rest : List WaiterId) :
    (p.free = l ++ [e] →
      StockfishPool.acquire p w =
        (StockfishPool.AcquireResult.acquired e, { p with free := l })) ∧
    (p.queue = w :: rest →
      StockfishPool.makeAvailable p e =
        ({ p with queue := rest }, [PoolEvent.resolved w e])) ∧
    (p.queue = w :: rest → e ∈ p.all →
      StockfishPool.release p e =
        ({ p with queue := rest }, [PoolEvent.resolved w e])) ∧
    (p.queue = w :: rest →
      (StockfishPool.addWorker p).2 = [PoolEvent.resolved w p.nextId] ∧
      (StockfishPool.addWorker p).1.free = p.free) := by
  refine ⟨fun hf => ?_, fun hq => ?_, fun hq hm => ?_, fun hq => ?_⟩
  · simp [StockfishPool.acquire, hf, List.getLast?_concat, List.dropLast_concat]
  · simp [StockfishPool.makeAvailable, hq]
  · simp [StockfishPool.release, hm, StockfishPool.makeAvailable, hq]
  · simp [StockfishPool.addWorker, StockfishPool.makeAvailable, hq]

/-- Witness for C5 at a concrete pool: a free list with two sessions is
popped from the top, and with a queued waiter a released member is handed
over with the free list untouched. -/
theorem c5_witness :
    (StockfishPool.acquire ⟨[3, 4], [3, 4], [], 5⟩ 9 =
      (StockfishPool.AcquireResult.acquired 4, ⟨[3, 4], [3], [], 5⟩)) ∧
    (StockfishPool.release ⟨[3, 4], [], [7, 8], 5⟩ 3 =
      (⟨[3, 4], [], [8], 5⟩, [PoolEvent.resolved 7 3])) :=
  ⟨(c5_lifo_acquire_fifo_waiters ⟨[3, 4], [3, 4], [], 5⟩ 9 4 [3] []).1 rfl,
   (c5_lifo_acquire_fifo_waiters ⟨[3, 4], [], [7, 8], 5⟩ 7 3 [] [8]).2.2.1 rfl
     (by decide)⟩

/-- C9 counterexample: with members zero and one both free, the free list
being zero then one, releasing the already idle session zero appends it a
second time, but the two following acquire calls return session zero and
then session one, not the same session twice; the claim fails as stated. -/
theorem c9_counterexample :
    (0 : SessionId) ∈ PoolState.all ⟨[0, 1], [0, 1], [], 2⟩ ∧
    (0 : SessionId) ∈ PoolState.free ⟨[0, 1], [0, 1], [], 2⟩ ∧
    (StockfishPool.release ⟨[0, 1], [0, 1], [], 2⟩ 0).1.free = [0, 1, 0] ∧
    (StockfishPool.acquire (StockfishPool.release ⟨[0, 1], [0, 1], [], 2⟩ 0).1 7).1 =
      StockfishPool.AcquireResult.acquired 0 ∧
    (StockfishPool.acquire
        (StockfishPool.acquire
          (StockfishPool.release ⟨[0, 1], [0, 1], [], 2⟩ 0).1 7).2 8).1 =
      StockfishPool.AcquireResult.acquired 1 ∧
    StockfishPool.AcquireResult.acquired (1 : SessionId) ≠
      StockfishPool.AcquireResult.acquired 0 := by
  refine ⟨by decide, by decide, by decide, by decide, by decide, by decide⟩

/-- C9 amended: release performs no idle check, so releasing a member
session that is already in the free list with no queued waiters appends it
a second time, after which it occurs at least twice in the free list and
the next acquire returns it; when the session was moreover the most
recently added free session, the following acquire returns the same
session again. -/
theorem c9_double_release (p : PoolState) (s : SessionId) (w1 w2 : WaiterId)
    (hm : s ∈ p.all) (hf : s ∈ p.free) (hq : p.queue = []) :
    (StockfishPool.release p s).1.free = p.free ++ [s] ∧
    2 ≤ ((StockfishPool.release p s).1.free.count s) ∧
    (StockfishPool.acquire (StockfishPool.release p s).1 w1).1 =
      StockfishPool.AcquireResult.acquired s ∧
    (StockfishPool.acquire (StockfishPool.release p s).1 w1).2.free = p.free ∧
    (p.free.getLast? = some s →
      (StockfishPool.acquire
          (StockfishPool.acquire (StockfishPool.release p s).1 w1).2 w2).1 =
        StockfishPool.AcquireResult.acquired s) := by
  have hrel : (StockfishPool.release p s).1.free = p.free ++ [s] := by
    simp [StockfishPool.release, hm, StockfishPool.makeAvailable, hq]
  refine ⟨hrel, ?_, ?_, ?_, ?_⟩
  · rw [hrel]
    have h1 : 0 < p.free.count s := List.count_pos_iff.mpr hf
    have h2 : (p.free ++ [s]).count s = p.free.count s + [s].count s :=
      List.count_append s p.free [s]
    have h3 : [s].count s = 1 := by simp
    omega
  · simp [StockfishPool.acquire, hrel, List.getLast?_concat]
  · simp [StockfishPool.acquire, hrel, List.getLast?_concat, List.dropLast_concat]
  · intro hlast
    have hfree2 :
        (StockfishPool.acquire (StockfishPool.release p s).1 w1).2.free = p.free := by
      simp [StockfishPool.acquire, hrel, List.getLast?_concat, List.dropLast_concat]
    have key : ∀ (q : PoolState) (w : WaiterId), q.free.getLast? = some s →
        (StockfishPool.acquire q w).1 = StockfishPool.AcquireResult.acquired s := by
      intro q w hg
      simp [StockfishPool.acquire, hg]
    apply key
    rw [hfree2, hlast]

/-- C1: a line beginning with the best-move keyword, processed while an
analysis is active (resolver registered and analysis object present), sets
the best move to token one of the whitespace split (the empty string when
that token is absent), sets the ponder move to token three exactly when
token two equals the ponder keyword, invokes the resolver exactly once
with the accumulated result, and clears the active analysis; the same
line processed with no active analysis changes no analysis state and is
only re-emitted as the raw output notification. -/
theorem c1_bestmove_finalizes (line : String) (s : SessionState)
    (hb : jsStartsWith line "bestmove" = true) :
    (∀ a, s.analysisPromise = true → s.currentAnalysis = some a →
      Stockfish.handleOutput line s =
        (⟨false, none⟩,
         [SessionEvent.output line,
          SessionEvent.resolve
            { a with
              bestmove := jsOrStr (jsSplit line)[1]? ""
              ponder := if (jsSplit line)[2]? = some "ponder" then (jsSplit line)[3]?
                        else a.ponder }])) ∧
    (s.analysisPromise = false ∨ s.currentAnalysis = none →
      Stockfish.handleOutput line s = (s, [SessionEvent.output line])) := by
  have hni := not_info_of_bestmove line hb
  constructor
  · intro a hp hc
    have hs : s = ⟨true, some a⟩ := by
      cases s
      simp only at hp hc
      rw [hp, hc]
    subst hs
    simp [Stockfish.handleOutput, hni, hb]
  · intro hidle
    cases s with
    | mk ap ca =>
      rcases hidle with h | h
      · simp only at h
        subst h
        cases ca <;> simp [Stockfish.handleOutput, hni, hb]
      · simp only at h
        subst h
        cases ap <;> simp [Stockfish.handleOutput, hni, hb]

/-- Witness for C1: a full best-move line with an active analysis resolves
it with best move e2e4 and ponder move e7e5, and a best-move line on an
idle session only re-emits the raw line. -/
theorem c1_witness :
    Stockfish.handleOutput "bestmove e2e4 ponder e7e5"
        ⟨true, some { bestmove := "", lines := [] }⟩ =
      (⟨false, none⟩,
       [SessionEvent.output "bestmove e2e4 ponder e7e5",
        SessionEvent.resolve
          { bestmove := "e2e4", ponder := some "e7e5", lines := [] }]) ∧
    Stockfish.handleOutput "bestmove e2e4" ⟨false, none⟩ =
      (⟨false, none⟩, [SessionEvent.output "bestmove e2e4"]) :=
  ⟨(c1_bestmove_finalizes "bestmove e2e4 ponder e7e5"
        ⟨true, some { bestmove := "", lines := [] }⟩ (by decide)).1
      { bestmove := "", lines := [] } rfl rfl,
   (c1_bestmove_finalizes "bestmove e2e4" ⟨false, none⟩ (by decide)).2
      (Or.inl rfl)⟩

/-- C8: the info-line parser never returns the none case of its declared
return type; every line beginning with the info keyword produces the raw
output notification followed by exactly one emitted info event; the
emitted event has an absent depth when the depth key does not occur among
the scanned tokens and an empty pv when the pv key does not occur. -/
theorem c8_parser_total (line : String) (s : SessionState) :
    (Stockfish.parseInfo line).isSome = true ∧
    (jsStartsWith line "info" = true →
      (Stockfish.handleOutput line s).2 =
        [SessionEvent.output line,
         SessionEvent.info ((Stockfish.parseInfo line).getD { pv := "" })]) ∧
    ("depth" ∉ (jsSplit line).drop 1 →
      ((Stockfish.parseInfo line).getD { pv := "" }).depth = none) ∧
    ("pv" ∉ (jsSplit line).drop 1 →
      ((Stockfish.parseInfo line).getD { pv := "" }).pv = "") := by
  refine ⟨rfl, ?_, ?_, ?_⟩
  · intro hi
    cases hc : s.currentAnalysis <;>
      simp [Stockfish.handleOutput, Stockfish.parseInfo, hi, hc]
  · intro h
    exact (parseInfoGo_preserve (jsSplit line).length ((jsSplit line).drop 1)
      { pv := "" }).1 h
  · intro h
    exact (parseInfoGo_preserve (jsSplit line).length ((jsSplit line).drop 1)
      { pv := "" }).2 h

/-- Witness for C8: an info line with no recognized key still produces an
info event whose depth is absent and whose pv is empty. -/
theorem c8_witness :
    (Stockfish.parseInfo "info foo bar").isSome = true ∧
    (Stockfish.handleOutput "info foo bar" ⟨false, none⟩).2 =
      [SessionEvent.output "info foo bar",
       SessionEvent.info ((Stockfish.parseInfo "info foo bar").getD { pv := "" })] ∧
    ((Stockfish.parseInfo "info foo bar").getD { pv := "" }).depth = none ∧
    ((Stockfish.parseInfo "info foo bar").getD { pv := "" }).pv = "" := by
  have h := c8_parser_total "info foo bar" ⟨false, none⟩
  exact ⟨h.1, h.2.1 (by decide), h.2.2.1 (by decide), h.2.2.2 (by decide)⟩

/-- C10: whenever an info event is folded into the active analysis, absent
optional fields are replaced by fixed defaults in the stored line, an
absent score by centipawn zero and absent nodes, time and nps by zero,
and the slot at index multipv-or-one minus one is overwritten with the new
line unconditionally, whatever the previously stored slot contained. -/
theorem c10_fold_defaults (line : String) (s : SessionState)
    (a : StockfishAnalysis) (i : StockfishInfo)
    (hi : jsStartsWith line "info" = true)
    (hp : Stockfish.parseInfo line = some i)
    (hc : s.currentAnalysis = some a) :
    Stockfish.handleOutput line s =
      ({ s with currentAnalysis := some { a with lines := jsArraySet a.lines (jsOrInt i.multipv 1 - 1) (foldLine i) } },
       [SessionEvent.output line, SessionEvent.info i]) ∧
    (0 ≤ jsOrInt i.multipv 1 - 1 →
      listGet (jsArraySet a.lines (jsOrInt i.multipv 1 - 1) (foldLine i))
          (jsOrInt i.multipv 1 - 1).toNat =
        some (foldLine i)) ∧
    (i.score = none → (foldLine i).score = ⟨"cp", JsNum.int 0⟩) ∧
    (i.nodes = none → (foldLine i).nodes = 0) ∧
    (i.time = none → (foldLine i).time = 0) ∧
    (i.nps = none → (foldLine i).nps = 0) := by
  refine ⟨?_, ?_, ?_, ?_, ?_, ?_⟩
  · simp [Stockfish.handleOutput, hi, hp, hc, foldLine]
  · intro h
    have h1 : (1 : Int) ≤ jsOrInt i.multipv 1 := by omega
    simp [jsArraySet, h, h1, listGet_setAtNat]
  · intro h; simp [foldLine, h]
  · intro h; simp [foldLine, h, jsOrInt]
  · intro h; simp [foldLine, h, jsOrInt]
  · intro h; simp [foldLine, h, jsOrInt]

/-- Witness for C10: an info line carrying only multipv and pv, folded
into an analysis whose slots one and two are already filled, overwrites
slot two with a line built entirely from the defaults. -/
theorem c10_witness :
    Stockfish.handleOutput "info multipv 2 pv e2e4"
        ⟨true, some ⟨"", none,
          [some ⟨"junk", ⟨"cp", JsNum.int 99⟩, none, 1, 2, 3⟩,
           some ⟨"junk", ⟨"cp", JsNum.int 99⟩, none, 1, 2, 3⟩]⟩⟩ =
      (⟨true, some ⟨"", none,
          [some ⟨"junk", ⟨"cp", JsNum.int 99⟩, none, 1, 2, 3⟩,
           some ⟨"e2e4", ⟨"cp", JsNum.int 0⟩, none, 0, 0, 0⟩]⟩⟩,
       [SessionEvent.output "info multipv 2 pv e2e4",
        SessionEvent.info
          ⟨none, none, none, none, none, none, none, some (JsNum.int 2), none, "e2e4"⟩]) :=
  (c10_fold_defaults "info multipv 2 pv e2e4"
      ⟨true, some ⟨"", none,
        [some ⟨"junk", ⟨"cp", JsNum.int 99⟩, none, 1, 2, 3⟩,
         some ⟨"junk", ⟨"cp", JsNum.int 99⟩, none, 1, 2, 3⟩]⟩⟩
      ⟨"", none,
        [some ⟨"junk", ⟨"cp", JsNum.int 99⟩, none, 1, 2, 3⟩,
         some ⟨"junk", ⟨"cp", JsNum.int 99⟩, none, 1, 2, 3⟩]⟩
      ⟨none, none, none, none, none, none, none, some (JsNum.int 2), none, "e2e4"⟩
      (by decide) (by decide) rfl).1

/-- C6: pool terminate clears membership, the free list and the waiter
queue while invoking no queued waiter resolver, and no sequence of public
pool operations on the terminated pool ever resolves an acquisition:
acquisitions pending at terminate and acquisitions issued afterwards never
resolve. -/
theorem c6_terminate_hangs (p : PoolState) (ops : List StockfishPool.PoolOp) :
    (StockfishPool.terminate p).1.all = [] ∧
    (StockfishPool.terminate p).1.free = [] ∧
    (StockfishPool.terminate p).1.queue = [] ∧
    ((StockfishPool.terminate p).2.all fun e => !e.isResolve) = true ∧
    ((StockfishPool.runOps (StockfishPool.terminate p).1 ops).2.all
        fun e => !e.isResolve) = true := by
  refine ⟨rfl, rfl, rfl, ?_, ?_⟩
  · simp [StockfishPool.terminate, PoolEvent.isResolve, List.all_map,
      Function.comp]
  · exact (runOps_no_resolve ops (StockfishPool.terminate p).1 rfl rfl).1

/-- C7: replacing an errored member removes it from membership and the
free list, terminates it, and constructs and registers exactly one fresh
replacement, so the dead session is in neither collection and the
membership size is restored. -/
theorem c7_replace_restores (p : PoolState) (dead : SessionId)
    (hnd : p.all.Nodup) (hmem : dead ∈ p.all) (hfresh : p.nextId ∉ p.all) :
    (StockfishPool.replaceWorker p dead).1.all.length = p.all.length ∧
    dead ∉ (StockfishPool.replaceWorker p dead).1.all ∧
    dead ∉ (StockfishPool.replaceWorker p dead).1.free ∧
    p.nextId ∈ (StockfishPool.replaceWorker p dead).1.all ∧
    (StockfishPool.replaceWorker p dead).1.nextId = p.nextId + 1 ∧
    PoolEvent.terminated dead ∈ (StockfishPool.replaceWorker p dead).2 := by
  have hdne : dead ≠ p.nextId := fun hc => hfresh (hc ▸ hmem)
  have hfe : p.nextId ∉ p.all.erase dead :=
    fun hc => hfresh (List.mem_of_mem_erase hc)
  have hde : dead ∉ p.all.erase dead := hnd.not_mem_erase
  have hlen : (p.all.erase dead).length = p.all.length - 1 :=
    List.length_erase_of_mem hmem
  have hpos : 0 < p.all.length := List.length_pos.mpr (List.ne_nil_of_mem hmem)
  cases hq : p.queue with
  | nil =>
    refine ⟨?_, ?_, ?_, ?_, ?_, ?_⟩ <;>
      simp [StockfishPool.replaceWorker, StockfishPool.addWorker,
        StockfishPool.makeAvailable, hq, hfe, hde, hdne, hlen, List.mem_filter]
    omega
  | cons w ws =>
    refine ⟨?_, ?_, ?_, ?_, ?_, ?_⟩ <;>
      simp [StockfishPool.replaceWorker, StockfishPool.addWorker,
        StockfishPool.makeAvailable, hq, hfe, hde, hdne, hlen, List.mem_filter]
    omega

/-- Witness for C7: in a fresh four-session pool whose member two errors,
the replacement restores membership size four, member two is gone from
both collections, and session four is registered. -/
theorem c7_witness :
    (StockfishPool.replaceWorker ⟨[0, 1, 2, 3], [0, 1, 2, 3], [], 4⟩ 2).1.all.length =
      ([0, 1, 2, 3] : List SessionId).length ∧
    (2 : SessionId) ∉
      (StockfishPool.replaceWorker ⟨[0, 1, 2, 3], [0, 1, 2, 3], [], 4⟩ 2).1.all ∧
    (2 : SessionId) ∉
      (StockfishPool.replaceWorker ⟨[0, 1, 2, 3], [0, 1, 2, 3], [], 4⟩ 2).1.free ∧
    (4 : SessionId) ∈
      (StockfishPool.replaceWorker ⟨[0, 1, 2, 3], [0, 1, 2, 3], [], 4⟩ 2).1.all ∧
    (StockfishPool.replaceWorker ⟨[0, 1, 2, 3], [0, 1, 2, 3], [], 4⟩ 2).1.nextId = 5 ∧
    PoolEvent.terminated 2 ∈
      (StockfishPool.replaceWorker ⟨[0, 1, 2, 3], [0, 1, 2, 3], [], 4⟩ 2).2 :=
  c7_replace_restores ⟨[0, 1, 2, 3], [0, 1, 2, 3], [], 4⟩ 2
    (by decide) (by decide) (by decide)

/-- Witness for C9 at a one-session pool: releasing the idle session gives
a free list with the session twice and both following acquires return it. -/
theorem c9_witness :
    (StockfishPool.release ⟨[0], [0], [], 1⟩ 0).1.free = [0, 0] ∧
    2 ≤ ((StockfishPool.release ⟨[0], [0], [], 1⟩ 0).1.free.count 0) ∧
    (StockfishPool.acquire (StockfishPool.release ⟨[0], [0], [], 1⟩ 0).1 7).1 =
      StockfishPool.AcquireResult.acquired 0 ∧
    (StockfishPool.acquire (StockfishPool.release ⟨[0], [0], [], 1⟩ 0).1 7).2.free = [0] ∧
    (PoolState.free ⟨[0], [0], [], 1⟩).getLast? = some 0 ∧
    (StockfishPool.acquire
        (StockfishPool.acquire (StockfishPool.release ⟨[0], [0], [], 1⟩ 0).1 7).2 8).1 =
      StockfishPool.AcquireResult.acquired 0 := by
  have h := c9_double_release ⟨[0], [0], [], 1⟩ 0 7 8 (by decide) (by decide) rfl
  exact ⟨h.1, h.2.1, h.2.2.1, h.2.2.2.1, by decide, h.2.2.2.2 (by decide)⟩

end NodeStockfish
